import Mathlib

/-!
Verification model of the macro_recorder repository (recorder.py, player.py).

Python floats are modelled as exact rationals; all timestamps and durations
are rationals.  Machine integers do not occur (Python ints are unbounded),
so coordinates are plain integers.  Exceptions are modelled with Except over
an explicit error type.  Thread interleavings relevant to the claims are
modelled by explicit schedules (for example, the iteration at which the
playback loop observes the stop flag is an arbitrary Boolean schedule).
-/

/-- Decidable equality of Except values, so that concrete runs of the
modelled fallible functions can be checked by evaluation. -/
instance {ε α : Type} [DecidableEq ε] [DecidableEq α] : DecidableEq (Except ε α) := fun x y =>
  match x, y with
  | Except.ok a, Except.ok b =>
    if h : a = b then Decidable.isTrue (by rw [h])
    else Decidable.isFalse (by intro he; cases he; exact h rfl)
  | Except.error a, Except.error b =>
    if h : a = b then Decidable.isTrue (by rw [h])
    else Decidable.isFalse (by intro he; cases he; exact h rfl)
  | Except.ok _, Except.error _ => Decidable.isFalse (by intro he; cases he)
  | Except.error _, Except.ok _ => Decidable.isFalse (by intro he; cases he)

/-- Errors raised by the Python code paths that the claims mention. -/
inductive PyErr where
  | runtimeError (msg : String)
  | valueError (msg : String)
  | attributeError (msg : String)
  | indexError (msg : String)
deriving DecidableEq, Repr

/-- Model of recorder.py's Record dataclass as consumed by the Player:
timestamp in seconds, (x, y) mouse position, list of (key identifier,
press timestamp) pairs, optional (button identifier, is-pressed) pair and
optional (dx, dy) scroll pair.  A keys field of None and an empty keys list
are behaviourally identical in player.py (both are falsy), so keys is a
plain list here; button and scroll distinguish None as Option.none. -/
structure Record where
  timestamp : ℚ
  mouse_pos : Int × Int
  keys : List (String × ℚ)
  button : Option (String × Bool)
  scroll : Option (Int × Int)
deriving DecidableEq, Repr

/-- Lookup in the keypress cache, modelling Python dict membership and
subscripting (player.py line 81). -/
def dict_get : List (String × ℚ) → String → Option ℚ
  | [], _ => Option.none
  | (k, v) :: rest, key => if k = key then Option.some v else dict_get rest key

/-- Update of the keypress cache, modelling Python dict assignment
(player.py line 82): replace the value at an existing key in place,
otherwise append the new binding. -/
def dict_set : List (String × ℚ) → String → ℚ → List (String × ℚ)
  | [], key, v => [(key, v)]
  | (k, w) :: rest, key, v =>
    if k = key then (key, v) :: rest else (k, w) :: dict_set rest key v

/-- The four modifier keys exempt from timestamp filtering
(player.py line 76). -/
def exempt_keys : List String := ["Key.ctrl", "Key.alt", "Key.shift", "Key.cmd"]

/-- The filtering loop of Player._press_and_release_key_combo
(player.py lines 75-83): walk the keys of one record in order, executing an
exempt key unconditionally and a non-exempt key exactly when it is absent
from the cache or its timestamp exceeds the cached one, updating the cache
at each executed non-exempt key.  Returns the executed key identifiers in
order together with the final cache. -/
def comboLoop : List (String × ℚ) → List (String × ℚ) → List String × List (String × ℚ)
  | [], cache => ([], cache)
  | (k, t) :: rest, cache =>
    if k ∈ exempt_keys then
      let r := comboLoop rest cache
      (k :: r.1, r.2)
    else
      match dict_get cache k with
      | Option.none =>
        let r := comboLoop rest (dict_set cache k t)
        (k :: r.1, r.2)
      | Option.some tc =>
        if tc < t then
          let r := comboLoop rest (dict_set cache k t)
          (k :: r.1, r.2)
        else
          comboLoop rest cache

/-- Key object produced by Player._get_key (player.py lines 19-28): a single
character is returned as itself, a "Key."-named identifier is resolved to
the pynput special key of that name (the getattr lookup itself lives in the
external pynput library), anything else is returned unchanged. -/
inductive KeyObj where
  | char (c : String)
  | special (name : String)
  | other (s : String)
deriving DecidableEq, Repr

/-- Player._get_key (player.py lines 19-28). -/
def get_key (key_str : String) : KeyObj :=
  if key_str.length = 1 then KeyObj.char key_str
  else if key_str.startsWith "Key." then
    KeyObj.special ((key_str.splitOn ".").getD 1 "")
  else KeyObj.other key_str

/-- Device actions performed during playback. -/
inductive Ev where
  | moveMouse (pos : Int × Int)
  | mouseDown (button : String)
  | mouseUp (button : String)
  | scrollV (dy : Int)
  | scrollH (dx : Int)
  | keyPress (k : KeyObj)
  | keyRelease (k : KeyObj)
deriving DecidableEq, Repr

/-- Player._move_mouse (player.py lines 30-42): reject an x coordinate
outside [0, screen_width) or a y coordinate outside [0, screen_height) with
a ValueError before any pointer movement; otherwise move the pointer. -/
def move_mouse (screen : Int × Int) (pos : Int × Int) : Except PyErr (List Ev) :=
  let w := screen.1
  let h := screen.2
  let x := pos.1
  let y := pos.2
  if ¬ (0 ≤ x ∧ x < w) then
    Except.error (PyErr.valueError s!"mouse x coordinate {x} out of range [0,{w}]")
  else if ¬ (0 ≤ y ∧ y < h) then
    Except.error (PyErr.valueError s!"mouse y coordinate {y} out of range [0,{h}]")
  else Except.ok [Ev.moveMouse pos]

/-- Player._click_button (player.py lines 44-55).  The "Button." text is
seven characters long, so dropping seven characters models the removal of
that leading text from the identifier. -/
def click_button : Option (String × Bool) → Except PyErr (List Ev)
  | Option.none => Except.ok []
  | Option.some (button_str, is_pressed) =>
    if button_str ∈ ["Button.left", "Button.right", "Button.middle"] then
      if is_pressed then Except.ok [Ev.mouseDown (button_str.drop 7)]
      else Except.ok [Ev.mouseUp (button_str.drop 7)]
    else Except.error (PyErr.valueError s!"unknown button type {button_str}")

/-- Player._scroll (player.py lines 57-65): vertical scroll first when dy is
non-zero, then horizontal scroll when dx is non-zero. -/
def scroll_action : Option (Int × Int) → List Ev
  | Option.none => []
  | Option.some (dx, dy) =>
    (if dy ≠ 0 then [Ev.scrollV dy] else []) ++ (if dx ≠ 0 then [Ev.scrollH dx] else [])

/-- Player._press_and_release_key_combo (player.py lines 67-92): filter the
keys through the cache, then press all filtered keys in order and release
them in the same order. -/
def press_and_release_key_combo (keys : List (String × ℚ)) (cache : List (String × ℚ)) :
    List Ev × List (String × ℚ) :=
  let r := comboLoop keys cache
  (r.1.map (fun k => Ev.keyPress (get_key k)) ++ r.1.map (fun k => Ev.keyRelease (get_key k)), r.2)

/-- Player._execute_event (player.py lines 94-98): move the mouse, apply the
button event, apply the scroll, then press and release the key combo.  An
error from the mouse move or the button click propagates, aborting the rest
of the record and, in _playback, the whole playback thread. -/
def execute_event (screen : Int × Int) (r : Record) (cache : List (String × ℚ)) :
    Except PyErr (List Ev × List (String × ℚ)) :=
  match move_mouse screen r.mouse_pos with
  | Except.error e => Except.error e
  | Except.ok evs1 =>
    match click_button r.button with
    | Except.error e => Except.error e
    | Except.ok evs2 =>
      let evs3 := scroll_action r.scroll
      let pr := press_and_release_key_combo r.keys cache
      Except.ok (evs1 ++ evs2 ++ evs3 ++ pr.1, pr.2)

/-- Record-level step of the playback thread: execution of the record at a
given position of the sequence, or a sleep of a given duration. -/
inductive PlayStep where
  | exec (i : Nat)
  | sleep (d : ℚ)
deriving DecidableEq, Repr

/-- Action performed by the playback thread after the final record
(player.py lines 123-126).  The constructor invokeCallback never occurs in
the model because player.py has no completion callback; it is included so
that the specification's claim about a completion callback can be stated
and refuted. -/
inductive CompletionAction where
  | setNotPlaying
  | notifyWait
  | invokeCallback
deriving DecidableEq, Repr

/-- The for-loop of Player._playback (player.py lines 102-119) over the
adjacent pairs (records[i-1], records[i]) for i = 1 .. len(records)-1.
The Boolean schedule stop gives the value of the stop_requested flag as
observed at the top of iteration i; quantifying over all schedules covers
every interleaving of Player.stop with the loop.  The pause check only
blocks the thread until resumed and changes neither the executed records
nor their order, so it has no footprint in this trace.  Each iteration
checks the stop flag, executes records[i-1], then sleeps for the timestamp
difference to records[i] divided by the speed. -/
def playbackPairs (screen : Int × Int) (stop : Nat → Bool) (speed : ℚ) :
    List (Record × Record) → Nat → List (String × ℚ) →
    Except PyErr (List PlayStep × List (String × ℚ))
  | [], _, cache => Except.ok ([], cache)
  | (curr, next) :: rest, i, cache =>
    if stop i then Except.ok ([], cache)
    else
      match execute_event screen curr cache with
      | Except.error e => Except.error e
      | Except.ok (_, cache2) =>
        match playbackPairs screen stop speed rest (i + 1) cache2 with
        | Except.error e => Except.error e
        | Except.ok (steps, cache3) =>
          Except.ok (PlayStep.exec (i - 1) ::
            PlayStep.sleep ((next.timestamp - curr.timestamp) / speed) :: steps, cache3)

/-- Python negative indexing records[-1] (player.py line 121): the last
element of the list, or an IndexError on an empty list. -/
def py_last {α : Type} : List α → Option α
  | [] => Option.none
  | [a] => Option.some a
  | _ :: b :: rest => py_last (b :: rest)

/-- Player._playback (player.py lines 100-126): run the loop over adjacent
pairs starting with an empty keypress cache, then unconditionally execute
the final record (records[-1], an IndexError on an empty sequence), then
mark the player not playing and notify the wait condition variable.  The
returned steps are the record executions and sleeps in order; the returned
completion actions are what the thread does after the final record.  An
exception propagates and the completion actions never happen. -/
def playback (screen : Int × Int) (records : List Record) (stop : Nat → Bool) (speed : ℚ) :
    Except PyErr (List PlayStep × List CompletionAction) :=
  match playbackPairs screen stop speed (records.zip records.tail) 1 [] with
  | Except.error e => Except.error e
  | Except.ok (steps, cache) =>
    match py_last records with
    | Option.none => Except.error (PyErr.indexError "list index out of range")
    | Option.some last =>
      match execute_event screen last cache with
      | Except.error e => Except.error e
      | Except.ok _ =>
        Except.ok (steps ++ [PlayStep.exec (records.length - 1)],
          [CompletionAction.setNotPlaying, CompletionAction.notifyWait])

namespace Player

/-- Sequential state of a Player object (player.py lines 128-140).  The
playback_thrd field holds the identifier of the spawned thread or
Option.none before any start, mirroring self._playback_thrd = None;
threads_spawned counts every thread ever spawned by this Player so that
theorems can state that a failing start spawns nothing.  Locks and
condition variables serialize the accesses modelled here and have no
further sequential content. -/
structure State where
  records : List Record
  speed : ℚ
  is_playing : Bool
  is_paused : Bool
  stop_requested : Bool
  playback_thrd : Option Nat
  threads_spawned : Nat
deriving DecidableEq, Repr

/-- Player.__init__ (player.py lines 128-140). -/
def init : State :=
  { records := [], speed := 1, is_playing := false, is_paused := false,
    stop_requested := false, playback_thrd := Option.none, threads_spawned := 0 }

/-- Player.start (player.py lines 142-156): raise while a playback is
active, otherwise store the records and speed, raise the is_playing flag,
clear the pause and stop flags and spawn the playback thread. -/
def start (records : List Record) (speed : ℚ) (s : State) : Except PyErr Unit × State :=
  if s.is_playing then
    (Except.error (PyErr.runtimeError "cannot play a new recording while playback is active"), s)
  else
    (Except.ok (),
      { s with records := records, speed := speed, is_playing := true, is_paused := false,
               stop_requested := false, playback_thrd := Option.some s.threads_spawned,
               threads_spawned := s.threads_spawned + 1 })

/-- Player.pause (player.py lines 158-170): raise unless a playback is
active, otherwise toggle the pause flag (notifying the pause condition
variable on resume). -/
def pause (s : State) : Except PyErr Unit × State :=
  if ¬ s.is_playing then
    (Except.error (PyErr.runtimeError "pause called but recording is not playing"), s)
  else if s.is_paused then (Except.ok (), { s with is_paused := false })
  else (Except.ok (), { s with is_paused := true })

/-- Player.wait (player.py lines 172-180): raise unless a playback is
active, otherwise block on the wait condition variable until notified. -/
def wait (s : State) : Except PyErr Unit × State :=
  if ¬ s.is_playing then
    (Except.error (PyErr.runtimeError "wait called but recording is not playing"), s)
  else (Except.ok (), s)

/-- Player.stop (player.py lines 182-187): set the stop_requested flag with
no is_playing check, then join the playback thread.  When no thread was
ever started, playback_thrd is None and the join raises an AttributeError
(None has no join attribute) with the flag already set; when a thread
exists, even one whose playback already completed, join returns and stop
succeeds. -/
def stop (s : State) : Except PyErr Unit × State :=
  let s2 := { s with stop_requested := true }
  match s2.playback_thrd with
  | Option.none => (Except.error (PyErr.attributeError "NoneType object has no attribute join"), s2)
  | Option.some _ => (Except.ok (), s2)

end Player

/-- Model of recorder.py's Record dataclass as mutated in place by the
Recorder's listener threads: every field starts as None and Record.clear
(recorder.py lines 43-49) resets every field to None, so every field is an
Option here. -/
structure InFlightRecord where
  timestamp : Option ℚ
  mouse_pos : Option (Int × Int)
  keys : Option (List (String × ℚ))
  button : Option (String × Bool)
  scroll : Option (Int × Int)
deriving DecidableEq, Repr

namespace Recorder

/-- The list comprehension of Recorder._on_release (recorder.py lines
97-98): drop every buffer entry whose identifier equals the released key,
keeping the rest in order. -/
def remove_key (key_str : String) : List (String × ℚ) → List (String × ℚ)
  | [] => []
  | e :: rest =>
    if e.1 = key_str then remove_key key_str rest else e :: remove_key key_str rest

/-- Recorder._on_release (recorder.py lines 91-103) acting on the
active-keys buffer and the in-flight record, with the released key already
resolved to its identifier string (the key.char versus str(key) resolution
of lines 100-103).  When the buffer is non-empty, the whole buffer is
copied into the record's keys field and the entries matching the released
key are dropped from the buffer; an empty buffer leaves everything
unchanged.  The deep copy has no content in a pure model. -/
def on_release (key_str : String) (active_keys : List (String × ℚ))
    (record : InFlightRecord) : List (String × ℚ) × InFlightRecord :=
  if active_keys ≠ [] then
    (remove_key key_str active_keys, { record with keys := Option.some active_keys })
  else (active_keys, record)

/-- Recorder._on_press (recorder.py lines 105-112): append the resolved key
identifier with the press time to the active-keys buffer. -/
def on_press (key_str : String) (now : ℚ) (active_keys : List (String × ℚ)) :
    List (String × ℚ) :=
  active_keys ++ [(key_str, now)]

/-- Sequential state of a Recorder object (recorder.py lines 166-185), with
threads_spawned counting every worker thread ever spawned. -/
structure State where
  rate_sec : ℚ
  is_recording : Bool
  record : InFlightRecord
  records : List InFlightRecord
  active_keys : List (String × ℚ)
  threads_spawned : Nat
deriving DecidableEq, Repr

/-- Recorder.__init__ (recorder.py lines 166-185). -/
def init : State :=
  { rate_sec := 1, is_recording := false,
    record := { timestamp := Option.none, mouse_pos := Option.none, keys := Option.none,
                button := Option.none, scroll := Option.none },
    records := [], active_keys := [], threads_spawned := 0 }

/-- Recorder.start (recorder.py lines 187-215): raise while a recording is
in progress, otherwise raise the flag, set the sampling period, reset the
output sequence and the active-keys buffer and spawn the three worker
threads. -/
def start (rate_hz : Int) (s : State) : Except PyErr Unit × State :=
  if s.is_recording then
    (Except.error (PyErr.runtimeError "recording already in progress"), s)
  else
    (Except.ok (),
      { s with is_recording := true, rate_sec := 1 / (rate_hz : ℚ), records := [],
               active_keys := [], threads_spawned := s.threads_spawned + 3 })

end Recorder

namespace Codec

/-- Whether a Python sequence value is a tuple or a list.  Python equality
distinguishes the two: a tuple never equals a list, even with equal
elements, which is what dataclass field-for-field equality of Records
compares after a JSON round trip. -/
inductive SeqKind where
  | tup
  | lst
deriving DecidableEq, Repr

/-- A Python sequence of integers together with its container kind, for
the mouse_pos and scroll fields. -/
structure IntSeq where
  kind : SeqKind
  items : List Int
deriving DecidableEq, Repr

/-- One entry of the keys field: a Python pair of a key identifier and a
press timestamp, with its container kind. -/
structure KeyEntry where
  kind : SeqKind
  key : String
  press_ts : ℚ
deriving DecidableEq, Repr

/-- The keys field: a Python sequence of key entries with its own container
kind. -/
structure KeysVal where
  kind : SeqKind
  entries : List KeyEntry
deriving DecidableEq, Repr

/-- The button field: a Python pair of a button identifier and an
is-pressed flag, with its container kind. -/
structure ButtonVal where
  kind : SeqKind
  name : String
  pressed : Bool
deriving DecidableEq, Repr

/-- Model of recorder.py's Record dataclass at the codec boundary,
restricted to the well-typed field shapes that the Recorder produces and
the loader reads back.  Unlike the playback-side model, each sequence
value carries whether it is a Python tuple or list, because JSON encoding
erases that distinction while dataclass equality observes it. -/
structure Record where
  timestamp : ℚ
  mouse_pos : IntSeq
  keys : Option KeysVal
  button : Option ButtonVal
  scroll : Option IntSeq
deriving DecidableEq, Repr

/-- JSON documents as written by json.dump and read by json.load.  Python
serializes ints and floats to distinct textual forms that json.load maps
back to int and float respectively, so the two are separate constructors;
repr-based float output round-trips exactly. -/
inductive Json where
  | null
  | bool (b : Bool)
  | int (n : Int)
  | float (q : ℚ)
  | str (s : String)
  | arr (xs : List Json)
  | obj (fields : List (String × Json))

/-- json.dump of a mouse_pos or scroll value: both tuples and lists are
serialized as JSON arrays, erasing the container kind. -/
def dump_int_seq (s : IntSeq) : Json := Json.arr (s.items.map Json.int)

/-- json.dump of one keys entry. -/
def dump_key_entry (e : KeyEntry) : Json := Json.arr [Json.str e.key, Json.float e.press_ts]

/-- json.dump of the keys field value. -/
def dump_keys (kv : KeysVal) : Json := Json.arr (kv.entries.map dump_key_entry)

/-- json.dump of the button field value. -/
def dump_button (b : ButtonVal) : Json := Json.arr [Json.str b.name, Json.bool b.pressed]

/-- json.dump of an optional field: Python None serializes to JSON null. -/
def dump_opt {α : Type} (f : α → Json) : Option α → Json
  | Option.none => Json.null
  | Option.some v => f v

/-- The per-record dictionary built by save_records_to_json (recorder.py
lines 59-67), with the exact key set and order of the source. -/
def record_to_json (r : Record) : Json :=
  Json.obj [("timestamp", Json.float r.timestamp),
            ("mouse_pos", dump_int_seq r.mouse_pos),
            ("keys", dump_opt dump_keys r.keys),
            ("button", dump_opt dump_button r.button),
            ("scroll", dump_opt dump_int_seq r.scroll)]

/-- save_records_to_json (recorder.py lines 52-69): raise on an empty
record list, otherwise produce the document holding the records under the
single key "records".  The file write itself is the identity on the
document. -/
def save_records_to_json (records : List Record) : Except PyErr Json :=
  if records = [] then
    Except.error (PyErr.runtimeError "failed to save, list of records is empty")
  else Except.ok (Json.obj [("records", Json.arr (records.map record_to_json))])

/-- Python dict subscripting on a decoded JSON object: the value at the
key, or a KeyError (here Option.none) when absent. -/
def json_get : List (String × Json) → String → Option Json
  | [], _ => Option.none
  | (k, v) :: rest, key => if k = key then Option.some v else json_get rest key

/-- The accumulation loop of load_records_from_json (recorder.py lines
76-84): decode each element in order, failing as soon as one element
fails. -/
def parse_list {α : Type} (f : Json → Option α) : List Json → Option (List α)
  | [] => Option.some []
  | j :: rest =>
    match f j with
    | Option.none => Option.none
    | Option.some v =>
      match parse_list f rest with
      | Option.none => Option.none
      | Option.some vs => Option.some (v :: vs)

/-- Decoding of an integer JSON value. -/
def parse_int : Json → Option Int
  | Json.int n => Option.some n
  | _ => Option.none

/-- Decoding of a float JSON value. -/
def parse_float : Json → Option ℚ
  | Json.float q => Option.some q
  | _ => Option.none

/-- json.load of a mouse_pos or scroll value: a JSON array always decodes
to a Python list, never to a tuple. -/
def parse_int_seq : Json → Option IntSeq
  | Json.arr xs => (parse_list parse_int xs).map (fun items => ⟨SeqKind.lst, items⟩)
  | _ => Option.none

/-- json.load of one keys entry: the serialized pair comes back as a
two-element Python list. -/
def parse_key_entry : Json → Option KeyEntry
  | Json.arr [Json.str k, Json.float q] => Option.some ⟨SeqKind.lst, k, q⟩
  | _ => Option.none

/-- json.load of the keys field value. -/
def parse_keys : Json → Option KeysVal
  | Json.arr xs => (parse_list parse_key_entry xs).map (fun es => ⟨SeqKind.lst, es⟩)
  | _ => Option.none

/-- json.load of the button field value. -/
def parse_button : Json → Option ButtonVal
  | Json.arr [Json.str n, Json.bool b] => Option.some ⟨SeqKind.lst, n, b⟩
  | _ => Option.none

/-- json.load of an optional field: JSON null decodes to Python None. -/
def parse_opt {α : Type} (f : Json → Option α) : Json → Option (Option α)
  | Json.null => Option.some Option.none
  | j => (f j).map Option.some

/-- Decoding of one record dictionary, as consumed by the Record
constructor call of recorder.py lines 78-84.  Python defers all field
validation to use time; this model decodes at the type of valid records,
which agrees with the source on every well-formed document. -/
def load_record (j : Json) : Option Record :=
  match j with
  | Json.obj fields => do
    let jt ← json_get fields "timestamp"
    let ts ← parse_float jt
    let jm ← json_get fields "mouse_pos"
    let mp ← parse_int_seq jm
    let jk ← json_get fields "keys"
    let ks ← parse_opt parse_keys jk
    let jb ← json_get fields "button"
    let bt ← parse_opt parse_button jb
    let js ← json_get fields "scroll"
    let sc ← parse_opt parse_int_seq js
    Option.some { timestamp := ts, mouse_pos := mp, keys := ks, button := bt, scroll := sc }
  | _ => Option.none

/-- load_records_from_json (recorder.py lines 72-85): read the list under
the key "records" and decode each record in order. -/
def load_records_from_json (doc : Json) : Option (List Record) :=
  match doc with
  | Json.obj fields =>
    match json_get fields "records" with
    | Option.some (Json.arr rs) => parse_list load_record rs
    | _ => Option.none
  | _ => Option.none

/-- The container-kind erasure a JSON round trip applies to an integer
sequence: the items survive, the container comes back as a list. -/
def listify_int_seq (s : IntSeq) : IntSeq := ⟨SeqKind.lst, s.items⟩

/-- The container-kind erasure a JSON round trip applies to a whole
Record: every field value survives element for element, every tuple
container comes back as a list. -/
def listify_record (r : Record) : Record :=
  { timestamp := r.timestamp,
    mouse_pos := listify_int_seq r.mouse_pos,
    keys := r.keys.map (fun kv =>
      ⟨SeqKind.lst, kv.entries.map (fun e => ⟨SeqKind.lst, e.key, e.press_ts⟩)⟩),
    button := r.button.map (fun b => ⟨SeqKind.lst, b.name, b.pressed⟩),
    scroll := r.scroll.map listify_int_seq }

/-- Saving a record list to a JSON document and loading it back
(recorder.py lines 52-85). -/
def round_trip (records : List Record) : Option (List Record) :=
  match save_records_to_json records with
  | Except.error _ => Option.none
  | Except.ok doc => load_records_from_json doc

end Codec

/-- Number of occurrences of an element in a list. -/
def countEq {α : Type} [DecidableEq α] (x : α) : List α → Nat
  | [] => 0
  | a :: rest => (if a = x then 1 else 0) + countEq x rest

/-- Number of entries of a keys list whose identifier is the given key. -/
def countKey (k : String) : List (String × ℚ) → Nat
  | [] => 0
  | e :: rest => (if e.1 = k then 1 else 0) + countKey k rest

/-- Whether the button field would pass _click_button without a
ValueError: absent, or one of the three known button identifiers. -/
def button_ok : Option (String × Bool) → Bool
  | Option.none => true
  | Option.some (b, _) => decide (b ∈ ["Button.left", "Button.right", "Button.middle"])

/-- Whether executing a record raises no exception inside the modelled
player code: the mouse position lies in [0, screen_width) x
[0, screen_height) and the button identifier is known.  These are the only
raise sites of _execute_event inside player.py itself. -/
def recordOk (screen : Int × Int) (r : Record) : Bool :=
  decide (0 ≤ r.mouse_pos.1) && decide (r.mouse_pos.1 < screen.1) &&
  decide (0 ≤ r.mouse_pos.2) && decide (r.mouse_pos.2 < screen.2) && button_ok r.button

/-- Modelled from the spec (section 4.2, playback algorithm): for each
adjacent pair (previous, next) in order, starting at position j of the
sequence, execute previous, then sleep for the timestamp difference
divided by the speed multiplier. -/
def schedOf (speed : ℚ) : List (Record × Record) → Nat → List PlayStep
  | [], _ => []
  | (curr, next) :: rest, j =>
    PlayStep.exec j :: PlayStep.sleep ((next.timestamp - curr.timestamp) / speed) ::
      schedOf speed rest (j + 1)

/-- Modelled from the spec (section 4.2, playback algorithm): execute each
adjacent pair with its scaled sleep, then execute the final snapshot once,
unconditionally. -/
def spec_schedule (records : List Record) (speed : ℚ) : List PlayStep :=
  schedOf speed (records.zip records.tail) 0 ++ [PlayStep.exec (records.length - 1)]

/-- Whether a completed or aborted playback run executed the final
record's actions exactly once: true when the run completes with exactly
one execution of the last position, false when it raises before reaching
the end. -/
def final_executed_once (screen : Int × Int) (records : List Record) (stop : Nat → Bool)
    (speed : ℚ) : Bool :=
  match playback screen records stop speed with
  | Except.ok (steps, _) => countEq (PlayStep.exec (records.length - 1)) steps == 1
  | Except.error _ => false

/-- Whether a playback run completed and its completion phase invoked a
completion callback. -/
def invokes_callback (screen : Int × Int) (records : List Record) (stop : Nat → Bool)
    (speed : ℚ) : Bool :=
  match playback screen records stop speed with
  | Except.ok (_, acts) => decide (CompletionAction.invokeCallback ∈ acts)
  | Except.error _ => false

/-- Whether an Except value is a success. -/
def is_ok {ε α : Type} : Except ε α → Bool
  | Except.ok _ => true
  | Except.error _ => false

/-- Whether an Except value is a ValueError. -/
def is_value_error {α : Type} : Except PyErr α → Bool
  | Except.error (PyErr.valueError _) => true
  | _ => false

/-- Modelled from the spec (claim of recorder.py lines 91-103 in the
specification text): on key release with a non-empty buffer, move exactly
the buffer entries matching the released key into the record's keys field,
merged after any entries already staged there, and drop only the matching
entries from the buffer. -/
def on_release_claimed (key_str : String) (active_keys : List (String × ℚ))
    (record : InFlightRecord) : List (String × ℚ) × InFlightRecord :=
  if active_keys ≠ [] then
    (Recorder.remove_key key_str active_keys,
     { record with keys :=
        Option.some ((record.keys.getD []) ++ active_keys.filter (fun e => e.1 = key_str)) })
  else (active_keys, record)

/-- Concrete record with timestamp 0 and an in-range mouse position. -/
def rec0 : Record :=
  { timestamp := 0, mouse_pos := (1, 1), keys := [], button := Option.none,
    scroll := Option.none }

/-- Concrete record with timestamp 2 and an in-range mouse position. -/
def rec2 : Record :=
  { timestamp := 2, mouse_pos := (1, 1), keys := [], button := Option.none,
    scroll := Option.none }

/-- Concrete record whose mouse x coordinate -1 is out of range on every
screen, so that executing it raises a ValueError. -/
def rec_bad : Record :=
  { timestamp := 0, mouse_pos := (-1, 0), keys := [], button := Option.none,
    scroll := Option.none }

/-- Concrete codec-level record whose mouse_pos is a Python tuple, as the
Recorder produces (pynput reports the pointer position as a tuple). -/
def tup_record : Codec.Record :=
  { timestamp := 0, mouse_pos := ⟨Codec.SeqKind.tup, [3, 4]⟩, keys := Option.none,
    button := Option.none, scroll := Option.none }

/-- Concrete in-flight record with one key entry already staged in its keys
field. -/
def staged_record : InFlightRecord :=
  { timestamp := Option.none, mouse_pos := Option.none,
    keys := Option.some [("c", 3)], button := Option.none, scroll := Option.none }

/-! Helper lemmas about the counting functions and the keypress cache. -/

lemma countEq_append {α : Type} [DecidableEq α] (x : α) (l1 l2 : List α) :
    countEq x (l1 ++ l2) = countEq x l1 + countEq x l2 := by
  induction l1 with
  | nil => simp [countEq]
  | cons a rest ih => simp [countEq, ih, Nat.add_assoc]

lemma dict_get_set_same (c : List (String × ℚ)) (k : String) (v : ℚ) :
    dict_get (dict_set c k v) k = Option.some v := by
  induction c with
  | nil => simp [dict_set, dict_get]
  | cons e rest ih =>
    obtain ⟨k1, w⟩ := e
    by_cases h : k1 = k
    · simp [dict_set, dict_get, h]
    · simp [dict_set, dict_get, h, ih]

lemma dict_get_set_other (c : List (String × ℚ)) (k k' : String) (v : ℚ) (h : k' ≠ k) :
    dict_get (dict_set c k' v) k = dict_get c k := by
  induction c with
  | nil => simp [dict_set, dict_get, h]
  | cons e rest ih =>
    obtain ⟨k1, w⟩ := e
    by_cases h1 : k1 = k'
    · simp [dict_set, dict_get, h1, h, Ne.symm h]
    · by_cases h2 : k1 = k
      · simp [dict_set, dict_get, h1, h2, Ne.symm h]
      · simp [dict_set, dict_get, h1, h2, ih]

/-! Helper lemmas about the keypress filtering loop. -/

lemma comboLoop_cons_exempt (k : String) (t : ℚ) (rest : List (String × ℚ))
    (c : List (String × ℚ)) (h : k ∈ exempt_keys) :
    comboLoop ((k, t) :: rest) c = (k :: (comboLoop rest c).1, (comboLoop rest c).2) := by
  simp [comboLoop, h]

lemma comboLoop_cons_exec (k : String) (t : ℚ) (rest : List (String × ℚ))
    (c : List (String × ℚ)) (h : ¬ k ∈ exempt_keys)
    (h2 : dict_get c k = Option.none ∨ ∃ tc, dict_get c k = Option.some tc ∧ tc < t) :
    comboLoop ((k, t) :: rest) c =
      (k :: (comboLoop rest (dict_set c k t)).1, (comboLoop rest (dict_set c k t)).2) := by
  rcases h2 with h2 | ⟨tc, h2, h3⟩
  · simp [comboLoop, h, h2]
  · simp [comboLoop, h, h2, h3]

lemma comboLoop_cons_skip (k : String) (t : ℚ) (rest : List (String × ℚ))
    (c : List (String × ℚ)) (tc : ℚ) (h : ¬ k ∈ exempt_keys)
    (h2 : dict_get c k = Option.some tc) (h3 : ¬ tc < t) :
    comboLoop ((k, t) :: rest) c = comboLoop rest c := by
  simp [comboLoop, h, h2, h3]

lemma comboLoop_cons_other (k1 : String) (t1 : ℚ) (rest : List (String × ℚ))
    (c : List (String × ℚ)) (k : String) (hne : k1 ≠ k) :
    ∃ c2, dict_get c2 k = dict_get c k ∧
      ((comboLoop ((k1, t1) :: rest) c).1 = k1 :: (comboLoop rest c2).1 ∨
        (comboLoop ((k1, t1) :: rest) c).1 = (comboLoop rest c2).1) ∧
      (comboLoop ((k1, t1) :: rest) c).2 = (comboLoop rest c2).2 := by
  by_cases he : k1 ∈ exempt_keys
  · exact ⟨c, rfl, Or.inl (by rw [comboLoop_cons_exempt _ _ _ _ he]),
      by rw [comboLoop_cons_exempt _ _ _ _ he]⟩
  · cases hg : dict_get c k1 with
    | none =>
      refine ⟨dict_set c k1 t1, dict_get_set_other _ _ _ _ hne, ?_, ?_⟩
      · exact Or.inl (by rw [comboLoop_cons_exec _ _ _ _ he (Or.inl hg)])
      · rw [comboLoop_cons_exec _ _ _ _ he (Or.inl hg)]
    | some tc =>
      by_cases hlt : tc < t1
      · refine ⟨dict_set c k1 t1, dict_get_set_other _ _ _ _ hne, ?_, ?_⟩
        · exact Or.inl (by rw [comboLoop_cons_exec _ _ _ _ he (Or.inr ⟨tc, hg, hlt⟩)])
        · rw [comboLoop_cons_exec _ _ _ _ he (Or.inr ⟨tc, hg, hlt⟩)]
      · refine ⟨c, rfl, ?_, ?_⟩
        · exact Or.inr (by rw [comboLoop_cons_skip _ _ _ _ _ he hg hlt])
        · rw [comboLoop_cons_skip _ _ _ _ _ he hg hlt]

lemma comboLoop_mem (keys : List (String × ℚ)) : ∀ (c : List (String × ℚ)) (k : String),
    ¬ k ∈ exempt_keys →
    (k ∈ (comboLoop keys c).1 ↔
      ∃ t, (k, t) ∈ keys ∧ ∀ tc, dict_get c k = Option.some tc → tc < t) := by
  induction keys with
  | nil => intro c k hk; simp [comboLoop]
  | cons e rest ih =>
    obtain ⟨k1, t1⟩ := e
    intro c k hk
    by_cases hne : k1 = k
    · subst hne
      rcases Option.eq_none_or_eq_some (dict_get c k1) with hg | ⟨tc, hg⟩
      · rw [comboLoop_cons_exec _ _ _ _ hk (Or.inl hg)]
        refine iff_of_true (by simp) ⟨t1, by simp, ?_⟩
        intro tc h
        rw [hg] at h
        exact absurd h (by simp)
      · by_cases hlt : tc < t1
        · rw [comboLoop_cons_exec _ _ _ _ hk (Or.inr ⟨tc, hg, hlt⟩)]
          refine iff_of_true (by simp) ⟨t1, by simp, ?_⟩
          intro tc' h
          rw [hg] at h
          injection h with h2
          rw [← h2]
          exact hlt
        · rw [comboLoop_cons_skip _ _ _ _ _ hk hg hlt]
          rw [ih c k1 hk]
          constructor
          · rintro ⟨t, ht, hp⟩
            exact ⟨t, List.mem_cons_of_mem _ ht, hp⟩
          · rintro ⟨t, ht, hp⟩
            rcases List.mem_cons.mp ht with h | h
            · have h3 : t = t1 := ((Prod.mk.injEq _ _ _ _).mp h).2
              subst h3
              exact absurd (hp tc hg) hlt
            · exact ⟨t, h, hp⟩
    · obtain ⟨c2, hc2, hout, _⟩ := comboLoop_cons_other k1 t1 rest c k hne
      have hmem : k ∈ (comboLoop ((k1, t1) :: rest) c).1 ↔ k ∈ (comboLoop rest c2).1 := by
        rcases hout with h | h
        · rw [h]
          simp [List.mem_cons, Ne.symm hne]
        · rw [h]
      rw [hmem, ih c2 k hk]
      constructor
      · rintro ⟨t, ht, hp⟩
        refine ⟨t, List.mem_cons_of_mem _ ht, ?_⟩
        rw [← hc2]
        exact hp
      · rintro ⟨t, ht, hp⟩
        rcases List.mem_cons.mp ht with h | h
        · exact absurd ((Prod.mk.injEq _ _ _ _).mp h).1 (Ne.symm hne)
        · refine ⟨t, h, ?_⟩
          rw [hc2]
          exact hp

lemma comboLoop_count_exempt (keys : List (String × ℚ)) :
    ∀ (c : List (String × ℚ)) (m : String), m ∈ exempt_keys →
      countEq m (comboLoop keys c).1 = countKey m keys := by
  induction keys with
  | nil => intro c m _; simp [comboLoop, countEq, countKey]
  | cons e rest ih =>
    obtain ⟨k1, t1⟩ := e
    intro c m hm
    by_cases hne : k1 = m
    · subst hne
      rw [comboLoop_cons_exempt _ _ _ _ hm]
      simp [countEq, countKey, ih c k1 hm]
    · obtain ⟨c2, _, hout, _⟩ := comboLoop_cons_other k1 t1 rest c m hne
      rcases hout with h | h <;> rw [h] <;> simp [countEq, countKey, hne, ih c2 m hm]

lemma comboLoop_skip_all (keys : List (String × ℚ)) :
    ∀ (c : List (String × ℚ)) (k : String) (t : ℚ), ¬ k ∈ exempt_keys →
      dict_get c k = Option.some t →
      (∀ t', (k, t') ∈ keys → t' = t) →
      countEq k (comboLoop keys c).1 = 0 ∧
        dict_get (comboLoop keys c).2 k = Option.some t := by
  induction keys with
  | nil => intro c k t _ hg _; simp [comboLoop, countEq, hg]
  | cons e rest ih =>
    obtain ⟨k1, t1⟩ := e
    intro c k t hk hg hall
    by_cases hne : k1 = k
    · subst hne
      have ht1 : t1 = t := hall t1 (by simp)
      subst ht1
      rw [comboLoop_cons_skip _ _ _ _ _ hk hg (lt_irrefl t1)]
      exact ih c k1 t1 hk hg (fun t' h => hall t' (List.mem_cons_of_mem _ h))
    · obtain ⟨c2, hc2, hout, hcache⟩ := comboLoop_cons_other k1 t1 rest c k hne
      have hg2 : dict_get c2 k = Option.some t := by rw [hc2]; exact hg
      have ihr := ih c2 k t hk hg2 (fun t' h => hall t' (List.mem_cons_of_mem _ h))
      constructor
      · rcases hout with h | h <;> rw [h] <;> simp [countEq, hne, ihr.1]
      · rw [hcache]
        exact ihr.2

lemma comboLoop_once (ks1 : List (String × ℚ)) :
    ∀ (ks2 c : List (String × ℚ)) (k : String) (t : ℚ),
      ¬ k ∈ exempt_keys →
      (∀ t', (k, t') ∈ ks1 ++ ks2 → t' = t) →
      (k, t) ∈ ks1 →
      (∀ tc, dict_get c k = Option.some tc → tc < t) →
      countEq k ((comboLoop ks1 c).1 ++ (comboLoop ks2 (comboLoop ks1 c).2).1) = 1 := by
  induction ks1 with
  | nil => intro ks2 c k t _ _ hmem _; cases hmem
  | cons e rest ih =>
    obtain ⟨k1, t1⟩ := e
    intro ks2 c k t hk hall hmem hc
    by_cases hne : k1 = k
    · subst hne
      have ht1 : t1 = t := hall t1 (by simp)
      subst ht1
      have hexec : comboLoop ((k1, t1) :: rest) c =
          (k1 :: (comboLoop rest (dict_set c k1 t1)).1, (comboLoop rest (dict_set c k1 t1)).2) := by
        cases hg : dict_get c k1 with
        | none => exact comboLoop_cons_exec _ _ _ _ hk (Or.inl hg)
        | some tc => exact comboLoop_cons_exec _ _ _ _ hk (Or.inr ⟨tc, hg, hc tc hg⟩)
      rw [hexec]
      have hg1 : dict_get (dict_set c k1 t1) k1 = Option.some t1 := dict_get_set_same c k1 t1
      have h1 := comboLoop_skip_all rest (dict_set c k1 t1) k1 t1 hk hg1
        (fun t' h => hall t' (List.mem_append_left _ (List.mem_cons_of_mem _ h)))
      have h2 := comboLoop_skip_all ks2 (comboLoop rest (dict_set c k1 t1)).2 k1 t1 hk h1.2
        (fun t' h => hall t' (List.mem_append_right _ h))
      simp [countEq, countEq_append, h1.1, h2.1]
    · obtain ⟨c2, hc2, hout, hcache⟩ := comboLoop_cons_other k1 t1 rest c k hne
      have hmem' : (k, t) ∈ rest := by
        rcases List.mem_cons.mp hmem with h | h
        · exact absurd ((Prod.mk.injEq _ _ _ _).mp h).1 (Ne.symm hne)
        · exact h
      have hall' : ∀ t', (k, t') ∈ rest ++ ks2 → t' = t := by
        intro t' h
        rcases List.mem_append.mp h with h | h
        · exact hall t' (List.mem_append_left _ (List.mem_cons_of_mem _ h))
        · exact hall t' (List.mem_append_right _ h)
      have hc' : ∀ tc, dict_get c2 k = Option.some tc → tc < t := by
        rw [hc2]
        exact hc
      have ihr := ih ks2 c2 k t hk hall' hmem' hc'
      rw [hcache]
      rcases hout with h | h <;> rw [h]
      · simpa [countEq, countEq_append, hne] using ihr
      · exact ihr

/-! Helper lemmas about record execution and the playback loop. -/

lemma execute_event_ok (screen : Int × Int) (r : Record) (cache : List (String × ℚ))
    (h : recordOk screen r = true) :
    ∃ evs, execute_event screen r cache = Except.ok (evs, (comboLoop r.keys cache).2) := by
  have hsplit : (0 ≤ r.mouse_pos.1 ∧ r.mouse_pos.1 < screen.1 ∧
      0 ≤ r.mouse_pos.2 ∧ r.mouse_pos.2 < screen.2) ∧ button_ok r.button = true := by
    unfold recordOk at h
    simp only [Bool.and_eq_true, decide_eq_true_eq] at h
    exact ⟨⟨h.1.1.1.1, h.1.1.1.2, h.1.1.2, h.1.2⟩, h.2⟩
  obtain ⟨⟨h1, h2, h3, h4⟩, h5⟩ := hsplit
  have hx : move_mouse screen r.mouse_pos = Except.ok [Ev.moveMouse r.mouse_pos] := by
    simp [move_mouse, h1, h2, h3, h4]
  have hb : ∃ evs2, click_button r.button = Except.ok evs2 := by
    cases hbtn : r.button with
    | none => exact ⟨[], by simp [click_button]⟩
    | some bp =>
      obtain ⟨b, p⟩ := bp
      rw [hbtn] at h5
      have h6 : b ∈ ["Button.left", "Button.right", "Button.middle"] :=
        of_decide_eq_true h5
      cases p
      · exact ⟨[Ev.mouseUp (b.drop 7)], by simp [click_button, h6]⟩
      · exact ⟨[Ev.mouseDown (b.drop 7)], by simp [click_button, h6]⟩
  obtain ⟨evs2, hb⟩ := hb
  refine ⟨[Ev.moveMouse r.mouse_pos] ++ evs2 ++ scroll_action r.scroll ++
    ((comboLoop r.keys cache).1.map (fun k => Ev.keyPress (get_key k)) ++
      (comboLoop r.keys cache).1.map (fun k => Ev.keyRelease (get_key k))), ?_⟩
  simp [execute_event, hx, hb, press_and_release_key_combo]

lemma py_last_some {α : Type} : ∀ (l : List α), l ≠ [] →
    ∃ x, py_last l = Option.some x ∧ x ∈ l := by
  intro l
  induction l with
  | nil => intro h; exact absurd rfl h
  | cons a rest ih =>
    intro _
    cases rest with
    | nil => exact ⟨a, rfl, by simp⟩
    | cons b rest2 =>
      obtain ⟨x, hx, hmem⟩ := ih (by simp)
      exact ⟨x, by simpa [py_last] using hx, List.mem_cons_of_mem _ hmem⟩

lemma playbackPairs_shape (screen : Int × Int) (stop : Nat → Bool) (speed : ℚ) :
    ∀ (pairs : List (Record × Record)) (i : Nat) (cache : List (String × ℚ)),
      1 ≤ i →
      (∀ p ∈ pairs, recordOk screen p.1 = true) →
      ∃ m cache2, m ≤ pairs.length ∧
        playbackPairs screen stop speed pairs i cache =
          Except.ok (schedOf speed (pairs.take m) (i - 1), cache2) := by
  intro pairs
  induction pairs with
  | nil =>
    intro i cache _ _
    exact ⟨0, cache, Nat.le_refl 0, by simp [playbackPairs, schedOf]⟩
  | cons p rest ih =>
    obtain ⟨curr, next⟩ := p
    intro i cache hi hvalid
    by_cases hstop : stop i = true
    · exact ⟨0, cache, Nat.zero_le _, by simp [playbackPairs, hstop, schedOf]⟩
    · have hstop' : stop i = false := by
        cases hsv : stop i
        · rfl
        · exact absurd hsv hstop
      have hcurr : recordOk screen curr = true := hvalid (curr, next) (by simp)
      obtain ⟨evs, hexec⟩ := execute_event_ok screen curr cache hcurr
      obtain ⟨m, cache2, hm, hrec⟩ := ih (i + 1) (comboLoop curr.keys cache).2 (by omega)
        (fun q hq => hvalid q (List.mem_cons_of_mem _ hq))
      refine ⟨m + 1, cache2, by simpa using Nat.succ_le_succ hm, ?_⟩
      have hidx : (i + 1) - 1 = (i - 1) + 1 := by omega
      simp [playbackPairs, hstop', hexec, hrec, schedOf, hidx]

lemma playbackPairs_full (screen : Int × Int) (speed : ℚ) :
    ∀ (pairs : List (Record × Record)) (i : Nat) (cache : List (String × ℚ)),
      1 ≤ i →
      (∀ p ∈ pairs, recordOk screen p.1 = true) →
      ∃ cache2, playbackPairs screen (fun _ => false) speed pairs i cache =
        Except.ok (schedOf speed pairs (i - 1), cache2) := by
  intro pairs
  induction pairs with
  | nil => intro i cache _ _; exact ⟨cache, by simp [playbackPairs, schedOf]⟩
  | cons p rest ih =>
    obtain ⟨curr, next⟩ := p
    intro i cache hi hvalid
    have hcurr : recordOk screen curr = true := hvalid (curr, next) (by simp)
    obtain ⟨evs, hexec⟩ := execute_event_ok screen curr cache hcurr
    obtain ⟨cache2, hrec⟩ := ih (i + 1) (comboLoop curr.keys cache).2 (by omega)
      (fun q hq => hvalid q (List.mem_cons_of_mem _ hq))
    refine ⟨cache2, ?_⟩
    have hidx : (i + 1) - 1 = (i - 1) + 1 := by omega
    simp [playbackPairs, hexec, hrec, schedOf, hidx]

lemma zip_tail_length {α : Type} (l : List α) :
    (l.zip l.tail).length = l.length - 1 := by
  rw [List.length_zip, List.length_tail]
  exact Nat.min_eq_right (Nat.sub_le _ _)

lemma zip_tail_valid (screen : Int × Int) (records : List Record)
    (hvalid : ∀ r ∈ records, recordOk screen r = true) :
    ∀ p ∈ records.zip records.tail, recordOk screen p.1 = true := by
  intro p hp
  obtain ⟨curr, next⟩ := p
  exact hvalid curr (List.of_mem_zip hp).1

lemma playback_shape (screen : Int × Int) (records : List Record) (stop : Nat → Bool)
    (speed : ℚ) (hne : records ≠ [])
    (hvalid : ∀ r ∈ records, recordOk screen r = true) :
    ∃ m, m ≤ records.length - 1 ∧
      playback screen records stop speed =
        Except.ok (schedOf speed ((records.zip records.tail).take m) 0 ++
            [PlayStep.exec (records.length - 1)],
          [CompletionAction.setNotPlaying, CompletionAction.notifyWait]) := by
  obtain ⟨m, cache2, hm, hrec⟩ := playbackPairs_shape screen stop speed
    (records.zip records.tail) 1 [] (Nat.le_refl 1) (zip_tail_valid screen records hvalid)
  obtain ⟨last, hlast, hmem⟩ := py_last_some records hne
  obtain ⟨evs, hexec⟩ := execute_event_ok screen last cache2 (hvalid last hmem)
  refine ⟨m, ?_, ?_⟩
  · rw [zip_tail_length] at hm
    exact hm
  · simp [playback, hrec, hlast, hexec]

lemma playback_full (screen : Int × Int) (records : List Record) (speed : ℚ)
    (hne : records ≠ [])
    (hvalid : ∀ r ∈ records, recordOk screen r = true) :
    playback screen records (fun _ => false) speed =
      Except.ok (spec_schedule records speed,
        [CompletionAction.setNotPlaying, CompletionAction.notifyWait]) := by
  obtain ⟨cache2, hrec⟩ := playbackPairs_full screen speed
    (records.zip records.tail) 1 [] (Nat.le_refl 1) (zip_tail_valid screen records hvalid)
  obtain ⟨last, hlast, hmem⟩ := py_last_some records hne
  obtain ⟨evs, hexec⟩ := execute_event_ok screen last cache2 (hvalid last hmem)
  simp [playback, hrec, hlast, hexec, spec_schedule]

lemma schedOf_count_exec (speed : ℚ) :
    ∀ (pairs : List (Record × Record)) (j x : Nat), j + pairs.length ≤ x →
      countEq (PlayStep.exec x) (schedOf speed pairs j) = 0 := by
  intro pairs
  induction pairs with
  | nil => intro j x _; simp [schedOf, countEq]
  | cons p rest ih =>
    obtain ⟨c, n⟩ := p
    intro j x h
    simp only [List.length_cons] at h
    have hj : ¬ j = x := by omega
    have hrec := ih (j + 1) x (by omega)
    simp [schedOf, countEq, hj, hrec]

/-! Helper lemmas about the JSON codec. -/

namespace Codec

lemma parse_list_int (xs : List Int) :
    parse_list parse_int (xs.map Json.int) = Option.some xs := by
  induction xs with
  | nil => rfl
  | cons a rest ih => simp [parse_list, parse_int, ih]

lemma parse_int_seq_dump (s : IntSeq) :
    parse_int_seq (dump_int_seq s) = Option.some (listify_int_seq s) := by
  simp [parse_int_seq, dump_int_seq, parse_list_int, listify_int_seq]

lemma parse_key_entry_dump (e : KeyEntry) :
    parse_key_entry (dump_key_entry e) =
      Option.some ⟨SeqKind.lst, e.key, e.press_ts⟩ := rfl

lemma parse_list_key (es : List KeyEntry) :
    parse_list parse_key_entry (es.map dump_key_entry) =
      Option.some (es.map (fun e => (⟨SeqKind.lst, e.key, e.press_ts⟩ : KeyEntry))) := by
  induction es with
  | nil => rfl
  | cons a rest ih => simp [parse_list, parse_key_entry_dump, ih]

lemma parse_keys_dump (kv : KeysVal) :
    parse_keys (dump_keys kv) =
      Option.some ⟨SeqKind.lst,
        kv.entries.map (fun e => (⟨SeqKind.lst, e.key, e.press_ts⟩ : KeyEntry))⟩ := by
  simp [parse_keys, dump_keys, parse_list_key]

lemma parse_opt_keys (v : Option KeysVal) :
    parse_opt parse_keys (dump_opt dump_keys v) =
      Option.some (v.map (fun kv =>
        (⟨SeqKind.lst,
          kv.entries.map (fun e => (⟨SeqKind.lst, e.key, e.press_ts⟩ : KeyEntry))⟩ : KeysVal))) := by
  cases v with
  | none => rfl
  | some kv => simp [dump_opt, dump_keys, parse_opt, parse_keys_dump, parse_keys, parse_list_key]

lemma parse_opt_button (v : Option ButtonVal) :
    parse_opt parse_button (dump_opt dump_button v) =
      Option.some (v.map (fun b => (⟨SeqKind.lst, b.name, b.pressed⟩ : ButtonVal))) := by
  cases v with
  | none => rfl
  | some b => rfl

lemma parse_opt_int_seq (v : Option IntSeq) :
    parse_opt parse_int_seq (dump_opt dump_int_seq v) =
      Option.some (v.map listify_int_seq) := by
  cases v with
  | none => rfl
  | some s => simp [dump_opt, dump_int_seq, parse_opt, parse_int_seq, parse_list_int, listify_int_seq]

lemma load_record_dump (r : Record) :
    load_record (record_to_json r) = Option.some (listify_record r) := by
  simp [load_record, record_to_json, json_get, parse_float, parse_int_seq_dump,
    parse_opt_keys, parse_opt_button, parse_opt_int_seq, listify_record]

lemma parse_list_records (records : List Record) :
    parse_list load_record (records.map record_to_json) =
      Option.some (records.map listify_record) := by
  induction records with
  | nil => rfl
  | cons r rest ih => simp [parse_list, load_record_dump, ih]

end Codec

lemma map_fixed {α : Type} (f : α → α) : ∀ (l : List α), (∀ a ∈ l, f a = a) → l.map f = l := by
  intro l
  induction l with
  | nil => intro _; rfl
  | cons a rest ih =>
    intro h
    simp [h a (by simp), ih (fun b hb => h b (List.mem_cons_of_mem _ hb))]

lemma remove_key_count (key_str : String) (e : String × ℚ) :
    ∀ l, countEq e (Recorder.remove_key key_str l) =
      if e.1 = key_str then 0 else countEq e l := by
  intro l
  induction l with
  | nil => by_cases h : e.1 = key_str <;> simp [Recorder.remove_key, countEq, h]
  | cons a rest ih =>
    by_cases ha : a.1 = key_str
    · by_cases he : e.1 = key_str
      · simp [Recorder.remove_key, ha, ih, he]
      · have hne2 : ¬ a = e := fun h => he (by rw [← h]; exact ha)
        simp [Recorder.remove_key, ha, countEq, ih, he, hne2]
    · by_cases he : e.1 = key_str
      · have hne2 : ¬ a = e := fun h => ha (by rw [h]; exact he)
        simp [Recorder.remove_key, ha, countEq, ih, he, hne2]
      · simp [Recorder.remove_key, ha, countEq, ih, he]

/-! Claim theorems. -/

/-- C1, amended: for every non-empty sequence of records all of whose
records execute without error (mouse position in range, button identifier
known), and for every positive speed and every stop schedule, the playback
thread executes the final record's actions exactly once before it exits,
both on natural end of sequence and under cancellation at any point.  The
claim as frozen quantifies over every non-empty sequence; it fails when a
record raises during execution (see the counterexample), because the
exception kills the thread before the final record runs. -/
theorem c1_final_action (screen : Int × Int) (records : List Record) (stop : Nat → Bool)
    (speed : ℚ) (_hspeed : 0 < speed) (hne : records ≠ [])
    (hvalid : ∀ r ∈ records, recordOk screen r = true) :
    final_executed_once screen records stop speed = true := by
  obtain ⟨m, hm, hshape⟩ := playback_shape screen records stop speed hne hvalid
  unfold final_executed_once
  rw [hshape]
  have hlen : ((records.zip records.tail).take m).length ≤ records.length - 1 := by
    have h1 : ((records.zip records.tail).take m).length ≤ m := List.length_take_le m _
    omega
  have hcount : countEq (PlayStep.exec (records.length - 1))
      (schedOf speed ((records.zip records.tail).take m) 0) = 0 :=
    schedOf_count_exec speed _ 0 (records.length - 1) (by omega)
  simp [countEq_append, hcount, countEq]

/-- Witness for c1_final_action at a concrete two-record sequence. -/
theorem c1_final_action_witness :
    (0 : ℚ) < 1 ∧ ([rec0, rec2] : List Record) ≠ [] ∧
      (∀ r ∈ [rec0, rec2], recordOk (100, 100) r = true) ∧
      final_executed_once (100, 100) [rec0, rec2] (fun _ => false) 1 = true :=
  ⟨by norm_num, by decide, by decide,
    c1_final_action (100, 100) [rec0, rec2] (fun _ => false) 1 (by norm_num) (by decide)
      (by decide)⟩

/-- Counterexample to C1 as frozen: a two-record sequence whose first
record has mouse x coordinate -1 raises a ValueError at the first loop
iteration, the exception propagates, and the thread exits without ever
executing the final record; the final record is executed zero times, not
exactly once. -/
theorem c1_final_action_counterexample :
    final_executed_once (100, 100) [rec_bad, rec2] (fun _ => false) 1 = false := by decide

/-- C2: during one playback, a non-exempt key entry is executed exactly
when it is absent from the keypress cache or its press timestamp strictly
exceeds the cached one, with the cache then updated to that timestamp
(first conjunct, the step equation; second conjunct, the whole-record
membership characterisation against the cache state at entry to the
record); the four modifier keys are executed every time they appear (third
conjunct); and a key identifier carried with an unchanged press timestamp
into a consecutive record is executed exactly once across the two records
(fourth conjunct). -/
theorem c2_key_dedup :
    (∀ (c : List (String × ℚ)) (k : String) (t : ℚ) (rest : List (String × ℚ)),
        ¬ k ∈ exempt_keys →
        (dict_get c k = Option.none ∨ ∃ tc, dict_get c k = Option.some tc ∧ tc < t) →
        comboLoop ((k, t) :: rest) c =
          (k :: (comboLoop rest (dict_set c k t)).1, (comboLoop rest (dict_set c k t)).2)) ∧
    (∀ (keys c : List (String × ℚ)) (k : String), ¬ k ∈ exempt_keys →
        (k ∈ (comboLoop keys c).1 ↔
          ∃ t, (k, t) ∈ keys ∧ ∀ tc, dict_get c k = Option.some tc → tc < t)) ∧
    (∀ (keys c : List (String × ℚ)) (m : String), m ∈ exempt_keys →
        countEq m (comboLoop keys c).1 = countKey m keys) ∧
    (∀ (ks1 ks2 c : List (String × ℚ)) (k : String) (t : ℚ),
        ¬ k ∈ exempt_keys →
        (∀ t', (k, t') ∈ ks1 ++ ks2 → t' = t) →
        (k, t) ∈ ks1 →
        (∀ tc, dict_get c k = Option.some tc → tc < t) →
        countEq k ((comboLoop ks1 c).1 ++ (comboLoop ks2 (comboLoop ks1 c).2).1) = 1) :=
  ⟨fun c k t rest h h2 => comboLoop_cons_exec k t rest c h h2,
   fun keys c k hk => comboLoop_mem keys c k hk,
   fun keys c m hm => comboLoop_count_exempt keys c m hm,
   fun ks1 ks2 c k t h1 h2 h3 h4 => comboLoop_once ks1 ks2 c k t h1 h2 h3 h4⟩

/-- Witness for c2_key_dedup: the key a with timestamp 1 appearing in two
consecutive records is executed exactly once. -/
theorem c2_key_dedup_witness :
    (¬ "a" ∈ exempt_keys) ∧
      countEq "a" ((comboLoop [("a", (1 : ℚ))] []).1 ++
        (comboLoop [("a", (1 : ℚ))] (comboLoop [("a", (1 : ℚ))] []).2).1) = 1 :=
  ⟨by decide,
    c2_key_dedup.2.2.2 [("a", 1)] [("a", 1)] [] "a" 1 (by decide)
      (by intro t' h; simp at h; exact h)
      (by decide)
      (by intro tc h; simp [dict_get] at h)⟩

/-- C3, amended: on a key release with a non-empty active-keys buffer, the
whole buffer (not only the matching entries) is copied into the in-flight
record's keys field, replacing (not merging with) whatever was staged
there, and exactly the entries matching the released key are removed from
the buffer.  The claim as frozen states that only matching entries move
and that they merge with the staged ones; the counterexample refutes it. -/
theorem c3_on_release (key_str : String) (active_keys : List (String × ℚ))
    (record : InFlightRecord) (hne : active_keys ≠ []) :
    (Recorder.on_release key_str active_keys record).2.keys = Option.some active_keys ∧
    ∀ e, countEq e (Recorder.on_release key_str active_keys record).1 =
      if e.1 = key_str then 0 else countEq e active_keys := by
  constructor
  · simp [Recorder.on_release, hne]
  · intro e
    simp [Recorder.on_release, hne, remove_key_count]

/-- Witness for c3_on_release at a concrete buffer: releasing a moves the
whole buffer into the record and removes exactly the a entries. -/
theorem c3_on_release_witness :
    ([("a", (1 : ℚ)), ("b", 2)] : List (String × ℚ)) ≠ [] ∧
      (Recorder.on_release "a" [("a", 1), ("b", 2)] staged_record).2.keys =
        Option.some [("a", 1), ("b", 2)] ∧
      countEq (("a", (1 : ℚ)))
        (Recorder.on_release "a" [("a", 1), ("b", 2)] staged_record).1 = 0 :=
  ⟨by decide,
    (c3_on_release "a" [("a", 1), ("b", 2)] staged_record (by decide)).1,
    by
      have h := (c3_on_release "a" [("a", 1), ("b", 2)] staged_record (by decide)).2
        ("a", (1 : ℚ))
      simpa using h⟩

/-- Counterexample to C3 as frozen: with buffer [(a,1),(b,2)] and entry
(c,3) already staged in the record's keys field, releasing a produces a
record keys field of the whole buffer [(a,1),(b,2)], not the claimed merge
[(c,3),(a,1)] of the staged entry with the matching entries. -/
theorem c3_on_release_counterexample :
    Recorder.on_release "a" [("a", 1), ("b", 2)] staged_record ≠
      on_release_claimed "a" [("a", 1), ("b", 2)] staged_record := by decide

/-- C4, amended: Player.start takes only the records and a speed
multiplier; player.py has no completion-callback parameter and invokes no
callback.  On every playback completion that does not raise (natural end
of sequence or cancellation alike), the playback thread performs exactly
the two completion actions of player.py lines 123-126: it marks the
Player not playing and notifies the wait condition variable, each once,
and never a callback invocation.  The claim as frozen asserts a
completion-callback argument and an invocation of it; the counterexample
shows a completed run whose completion phase invokes no callback. -/
theorem c4_completion (screen : Int × Int) (records : List Record) (stop : Nat → Bool)
    (speed : ℚ) (steps : List PlayStep) (acts : List CompletionAction)
    (h : playback screen records stop speed = Except.ok (steps, acts)) :
    acts = [CompletionAction.setNotPlaying, CompletionAction.notifyWait] ∧
      ¬ CompletionAction.invokeCallback ∈ acts := by
  unfold playback at h
  split at h
  · exact absurd h (by simp)
  · split at h
    · exact absurd h (by simp)
    · split at h
      · exact absurd h (by simp)
      · injection h with h2
        injection h2 with h3 h4
        rw [← h4]
        exact ⟨rfl, by decide⟩

/-- Witness for c4_completion at a concrete completed one-record run. -/
theorem c4_completion_witness :
    playback (100, 100) [rec0] (fun _ => false) 1 =
      Except.ok ([PlayStep.exec 0],
        [CompletionAction.setNotPlaying, CompletionAction.notifyWait]) ∧
    ([CompletionAction.setNotPlaying, CompletionAction.notifyWait] =
        [CompletionAction.setNotPlaying, CompletionAction.notifyWait] ∧
      ¬ CompletionAction.invokeCallback ∈
        [CompletionAction.setNotPlaying, CompletionAction.notifyWait]) :=
  ⟨by decide,
    c4_completion (100, 100) [rec0] (fun _ => false) 1 [PlayStep.exec 0]
      [CompletionAction.setNotPlaying, CompletionAction.notifyWait] (by decide)⟩

/-- Counterexample to C4 as frozen: a concrete playback run completes
(is_ok is true) and its completion phase invokes no completion callback,
so no caller-supplied callback is ever invoked: player.py line 142 has no
callback parameter to supply. -/
theorem c4_completion_counterexample :
    is_ok (playback (100, 100) [rec0] (fun _ => false) 1) = true ∧
      invokes_callback (100, 100) [rec0] (fun _ => false) 1 = false :=
  ⟨by decide, by decide⟩

/-- C5, amended: saving a non-empty list of records and loading it back
yields records whose field values are preserved element for element, with
every tuple-valued field coming back as a Python list (the container-kind
erasure listify_record); the round trip is the Python-equality identity
precisely on records whose sequence fields are already lists.  The claim
as frozen asserts field-for-field equality with the original; the
counterexample refutes it for a record whose mouse_pos is a tuple, as the
Recorder produces. -/
theorem c5_round_trip (records : List Codec.Record) (hne : records ≠ []) :
    Codec.round_trip records = Option.some (records.map Codec.listify_record) ∧
    ((∀ r ∈ records, Codec.listify_record r = r) →
      Codec.round_trip records = Option.some records) := by
  have h1 : Codec.round_trip records = Option.some (records.map Codec.listify_record) := by
    simp [Codec.round_trip, Codec.save_records_to_json, hne,
      Codec.load_records_from_json, Codec.json_get, Codec.parse_list_records]
  exact ⟨h1, fun hfix => by rw [h1, map_fixed _ _ hfix]⟩

/-- Witness for c5_round_trip at a concrete one-record list. -/
theorem c5_round_trip_witness :
    ([tup_record] : List Codec.Record) ≠ [] ∧
      Codec.round_trip [tup_record] =
        Option.some ([tup_record].map Codec.listify_record) :=
  ⟨by decide, (c5_round_trip [tup_record] (by decide)).1⟩

/-- Counterexample to C5 as frozen: a record whose mouse_pos is the tuple
(3, 4) comes back from the round trip with mouse_pos the list [3, 4],
which Python dataclass equality distinguishes from the tuple, so the
loaded list is not equal field for field to the original. -/
theorem c5_round_trip_counterexample :
    Codec.round_trip [tup_record] ≠ Option.some [tup_record] := by decide

/-- C6: whenever the recording or playing flag of a Recorder or Player is
raised, a further start() raises a RuntimeError and leaves the whole state
(worker threads included) unchanged; consequently a second start() without
an intervening stop() always fails on the second call and spawns no second
worker set. -/
theorem c6_mutual_exclusion :
    (∀ (rate_hz : Int) (s : Recorder.State), s.is_recording = true →
        Recorder.start rate_hz s =
          (Except.error (PyErr.runtimeError "recording already in progress"), s)) ∧
    (∀ (records : List Record) (speed : ℚ) (p : Player.State), p.is_playing = true →
        Player.start records speed p =
          (Except.error
            (PyErr.runtimeError "cannot play a new recording while playback is active"), p)) ∧
    (∀ (hz hz' : Int) (s : Recorder.State), s.is_recording = false →
        (Recorder.start hz' (Recorder.start hz s).2).1 =
          Except.error (PyErr.runtimeError "recording already in progress") ∧
        (Recorder.start hz' (Recorder.start hz s).2).2.threads_spawned =
          (Recorder.start hz s).2.threads_spawned) ∧
    (∀ (l1 l2 : List Record) (sp1 sp2 : ℚ) (p : Player.State), p.is_playing = false →
        (Player.start l2 sp2 (Player.start l1 sp1 p).2).1 =
          Except.error
            (PyErr.runtimeError "cannot play a new recording while playback is active") ∧
        (Player.start l2 sp2 (Player.start l1 sp1 p).2).2.threads_spawned =
          (Player.start l1 sp1 p).2.threads_spawned) := by
  refine ⟨?_, ?_, ?_, ?_⟩
  · intro rate_hz s h
    simp [Recorder.start, h]
  · intro records speed p h
    simp [Player.start, h]
  · intro hz hz' s h
    simp [Recorder.start, h]
  · intro l1 l2 sp1 sp2 p h
    simp [Player.start, h]

/-- Witness for c6_mutual_exclusion: a started Recorder state rejects a
second start, and likewise for a Player. -/
theorem c6_mutual_exclusion_witness :
    (Recorder.init.is_recording = false ∧
      (Recorder.start 50 (Recorder.start 100 Recorder.init).2).1 =
        Except.error (PyErr.runtimeError "recording already in progress") ∧
      (Recorder.start 50 (Recorder.start 100 Recorder.init).2).2.threads_spawned =
        (Recorder.start 100 Recorder.init).2.threads_spawned) ∧
    (Player.init.is_playing = false ∧
      (Player.start [rec0] 1 (Player.start [rec0] 1 Player.init).2).1 =
        Except.error
          (PyErr.runtimeError "cannot play a new recording while playback is active") ∧
      (Player.start [rec0] 1 (Player.start [rec0] 1 Player.init).2).2.threads_spawned =
        (Player.start [rec0] 1 Player.init).2.threads_spawned) :=
  ⟨⟨rfl, c6_mutual_exclusion.2.2.1 100 50 Recorder.init rfl⟩,
   ⟨rfl, c6_mutual_exclusion.2.2.2 [rec0] [rec0] 1 1 Player.init rfl⟩⟩

/-- C7: moving the mouse to a position with x outside [0, screen_width) or
y outside [0, screen_height) fails with a ValueError and performs no
pointer move (the error carries no device action); for a position inside
both ranges no error is raised and exactly the pointer move to that
position is performed. -/
theorem c7_out_of_range (w h x y : Int) :
    (¬ (0 ≤ x ∧ x < w ∧ 0 ≤ y ∧ y < h) →
      is_value_error (move_mouse (w, h) (x, y)) = true) ∧
    ((0 ≤ x ∧ x < w ∧ 0 ≤ y ∧ y < h) →
      move_mouse (w, h) (x, y) = Except.ok [Ev.moveMouse (x, y)]) := by
  constructor
  · intro hout
    by_cases h1 : 0 ≤ x ∧ x < w
    · have h2 : ¬ (0 ≤ y ∧ y < h) := by tauto
      simp [move_mouse, h1, h2, is_value_error]
    · simp [move_mouse, h1, is_value_error]
  · rintro ⟨h1, h2, h3, h4⟩
    simp [move_mouse, h1, h2, h3, h4]

/-- Witness for c7_out_of_range: an out-of-range and an in-range position
on a 100 by 50 screen. -/
theorem c7_out_of_range_witness :
    (¬ (0 ≤ (120 : Int) ∧ (120 : Int) < 100 ∧ 0 ≤ (10 : Int) ∧ (10 : Int) < 50) ∧
      is_value_error (move_mouse (100, 50) (120, 10)) = true) ∧
    ((0 ≤ (10 : Int) ∧ (10 : Int) < 100 ∧ 0 ≤ (20 : Int) ∧ (20 : Int) < 50) ∧
      move_mouse (100, 50) (10, 20) = Except.ok [Ev.moveMouse (10, 20)]) :=
  ⟨⟨by decide, (c7_out_of_range 100 50 120 10).1 (by decide)⟩,
   ⟨by decide, (c7_out_of_range 100 50 10 20).2 (by decide)⟩⟩

/-- C8: for every valid non-empty sequence and positive speed multiplier,
the playback trace is a stop-truncated head of the specification schedule
followed by the unconditional final execution, so between executing
adjacent records previous and next the thread sleeps exactly
(next.timestamp - previous.timestamp) / speed (first conjunct, arbitrary
stop schedule); with no cancellation the trace equals the specification
schedule exactly (second conjunct).  The witness instantiates the
two-element sequence with timestamps 0 and 2 at speed 2, whose single
sleep is 1 second. -/
theorem c8_speed_scaling :
    (∀ (screen : Int × Int) (records : List Record) (stop : Nat → Bool) (speed : ℚ),
        0 < speed → records ≠ [] →
        (∀ r ∈ records, recordOk screen r = true) →
        ∃ m, m ≤ records.length - 1 ∧
          playback screen records stop speed =
            Except.ok (schedOf speed ((records.zip records.tail).take m) 0 ++
                [PlayStep.exec (records.length - 1)],
              [CompletionAction.setNotPlaying, CompletionAction.notifyWait])) ∧
    (∀ (screen : Int × Int) (records : List Record) (speed : ℚ),
        0 < speed → records ≠ [] →
        (∀ r ∈ records, recordOk screen r = true) →
        playback screen records (fun _ => false) speed =
          Except.ok (spec_schedule records speed,
            [CompletionAction.setNotPlaying, CompletionAction.notifyWait])) :=
  ⟨fun screen records stop speed _ hne hvalid =>
      playback_shape screen records stop speed hne hvalid,
   fun screen records speed _ hne hvalid =>
      playback_full screen records speed hne hvalid⟩

/-- Witness for c8_speed_scaling: two records with timestamps 0 and 2
played at speed 2 sleep exactly 1 second between the two executions. -/
theorem c8_speed_scaling_witness :
    (0 : ℚ) < 2 ∧ ([rec0, rec2] : List Record) ≠ [] ∧
      (∀ r ∈ [rec0, rec2], recordOk (100, 100) r = true) ∧
      playback (100, 100) [rec0, rec2] (fun _ => false) 2 =
        Except.ok ([PlayStep.exec 0, PlayStep.sleep 1, PlayStep.exec 1],
          [CompletionAction.setNotPlaying, CompletionAction.notifyWait]) := by
  refine ⟨by norm_num, by decide, by decide, ?_⟩
  have h := c8_speed_scaling.2 (100, 100) [rec0, rec2] 2 (by norm_num) (by decide) (by decide)
  rw [h]
  have hs : ((2 : ℚ) - 0) / 2 = 1 := by norm_num
  simp [spec_schedule, schedOf, rec0, rec2, hs]

/-- C9: calling the playback routine on an empty record list always fails
with an IndexError from the unconditional final-record indexing
records[-1], for every screen, stop schedule and speed, while Player.start
itself accepts the empty list without complaint, so non-emptiness is a
genuine precondition of playback rather than a handled case. -/
theorem c9_empty_records :
    (∀ (screen : Int × Int) (stop : Nat → Bool) (speed : ℚ),
        playback screen [] stop speed =
          Except.error (PyErr.indexError "list index out of range")) ∧
    (∀ speed : ℚ, (Player.start [] speed Player.init).1 = Except.ok ()) := by
  constructor
  · intro screen stop speed
    rfl
  · intro speed
    rfl

/-- C10: Player.stop checks no is-playing state: on a fresh Player it
fails with an AttributeError from joining the nonexistent thread (with the
stop flag nevertheless already set), unlike pause() and wait() which fail
with their state-misuse RuntimeErrors, and on any state holding a thread,
such as one whose playback already completed, stop returns without
error. -/
theorem c10_stop_no_check :
    Player.stop Player.init =
      (Except.error (PyErr.attributeError "NoneType object has no attribute join"),
        { Player.init with stop_requested := true }) ∧
    (Player.pause Player.init).1 =
      Except.error (PyErr.runtimeError "pause called but recording is not playing") ∧
    (Player.wait Player.init).1 =
      Except.error (PyErr.runtimeError "wait called but recording is not playing") ∧
    (∀ (s : Player.State) (t : Nat), s.playback_thrd = Option.some t →
      (Player.stop s).1 = Except.ok ()) := by
  refine ⟨rfl, rfl, rfl, ?_⟩
  intro s t ht
  simp [Player.stop, ht]

/-- Witness for c10_stop_no_check: stop succeeds on a state that holds a
playback thread. -/
theorem c10_stop_no_check_witness :
    ({ Player.init with playback_thrd := Option.some 0 } : Player.State).playback_thrd =
      Option.some 0 ∧
    (Player.stop { Player.init with playback_thrd := Option.some 0 }).1 = Except.ok () :=
  ⟨rfl, c10_stop_no_check.2.2.2 { Player.init with playback_thrd := Option.some 0 } 0 rfl⟩
